import Mathlib

/-!
Verification of the navigation/script-matching core of the chrome-site-launcher
extension (`background.js`), as a shallow embedding in Lean 4.

The embedding translates the source as directly as possible:
* JavaScript strings are `String` (manipulated through their `List Char` data);
* the JS regular expression produced by `matchesPattern` is modelled by a tiny
  regex language (`RPiece`) covering exactly the constructs the produced
  expression can contain (escaped literals, `.` and `.*`), with JS semantics
  (`.` matches any character except a line terminator, `^...$` anchoring is
  realized by whole-string matching);
* the WHATWG `URL` platform API (not repository code) is modelled by `parseURL`,
  restricted to well-formed lower-case `http(s)://host/path?query#fragment`
  URLs with a nonempty host; on any other input it returns `none`, modelling a
  thrown `TypeError`.  URLs appearing in concrete theorems below stay inside
  the fragment on which this model agrees with the browser;
* the background service worker's `chrome.tabs.onUpdated` listener is modelled
  by `onUpdated`, split into the URL-change phase (`urlChangePhase`, lines
  368-437 of background.js) and the load-complete phase (`completePhase`,
  lines 440-583); the in-memory per-tab `Map`s become association lists in
  `TabMaps`, `chrome.storage.session` becomes an association list
  `List (String × Bool)`, and the asynchronous confirmation popup
  (`showConfirmPopup`) becomes an oracle `confirm : Nat → Bool` consumed in
  call order, where `false` covers Cancel, the 30-second timeout and a closed
  tab (all of which resolve the promise with `false` in the source);
* "a script is executed" means the corresponding `executeScriptWithTiming`
  call is reached; the listener model returns the site scripts and global
  rules for which that happened.

Recursive string workers take an explicit fuel argument (always instantiated
with a sufficient bound by their wrappers) so that every definition is a plain
structural recursion.
-/

/-! ## Basic string helpers (JS string primitives on `List Char` data) -/

/-- JS `s.startsWith(pre)`. -/
def strStartsWith (s pre : String) : Bool :=
  pre.data.isPrefixOf s.data

/-- JS `s.includes(c)` for a single character (used for `pattern.includes('/')`). -/
def strContains (s : String) (c : Char) : Bool :=
  s.data.contains c

/-- JS regex line terminators, which `.` does not match: LF, CR, LS, PS. -/
def isLineTerm (c : Char) : Bool :=
  c = '\n' || c = '\r' || c = '\u2028' || c = '\u2029'

/-! ## The WHATWG URL platform API (modelled; not repository code) -/

/-- Result of a successful URL parse: scheme, full host (with any port),
hostname (host without port), pathname. -/
structure UrlParts where
  scheme : String
  host : String
  hostname : String
  pathname : String
deriving DecidableEq, Repr

/-- Modelled from the platform (the WHATWG `new URL(...)` constructor), which the
repository calls but does not define.  Restricted to lower-case `http(s)://`
URLs with a nonempty host; everything else returns `none`, modelling a thrown
`TypeError`.  The host is cut at the first `/`, `?` or `#`; the pathname is cut
at the first `?` or `#` and defaults to `/`; percent-encoding, userinfo,
case-normalisation and tab/newline stripping are outside the modelled fragment. -/
def parseURL (url : String) : Option UrlParts :=
  let cs := url.data
  let parseAfter : String → List Char → Option UrlParts := fun scheme rest =>
    let host := rest.takeWhile (fun c => c ≠ '/' && c ≠ '?' && c ≠ '#')
    if host = [] then none
    else
      let tail := rest.drop host.length
      let hostname := host.takeWhile (fun c => c ≠ ':')
      let path := tail.takeWhile (fun c => c ≠ '?' && c ≠ '#')
      some ⟨scheme, ⟨host⟩, ⟨hostname⟩, if path = [] then "/" else ⟨path⟩⟩
  if "https://".data.isPrefixOf cs then parseAfter "https" (cs.drop 8)
  else if "http://".data.isPrefixOf cs then parseAfter "http" (cs.drop 7)
  else none

/-- background.js `getHostname` (lines 342-348): `new URL(url).hostname`,
with a thrown parse error caught and turned into `''`. -/
def getHostname (url : String) : String :=
  match parseURL url with
  | some u => u.hostname
  | none => ""

/-- One backtracking candidate of the JS fallback regexes: the host is the
maximal nonempty run of non-`/` characters. -/
def manualHostFrom (cs : List Char) : Option (List Char) :=
  let h := cs.takeWhile (fun c => c ≠ '/')
  if h = [] then none else some h

/-- The JS fallback `url.match(/^(?:https?:\/\/)?([^\/]+)/)` used by
`matchesPattern` when URL parsing fails (background.js lines 313-316),
including the backtracking of the optional scheme prefix; a failed match
leaves the URL itself as the target. -/
def manualHost (url : String) : String :=
  let cs := url.data
  let viaPrefix :=
    if "https://".data.isPrefixOf cs then
      (manualHostFrom (cs.drop 8)).orElse (fun _ => manualHostFrom cs)
    else if "http://".data.isPrefixOf cs then
      (manualHostFrom (cs.drop 7)).orElse (fun _ => manualHostFrom cs)
    else manualHostFrom cs
  match viaPrefix with
  | some h => ⟨h⟩
  | none => url

/-- One backtracking candidate of the JS fallback regex
`^(?:https?:\/\/)?([^\/]+)(\/.*)?$`: nonempty host, then either nothing or a
`/`-started remainder whose tail `.*` must not contain a line terminator. -/
def manualHostPathFrom (cs : List Char) : Option (List Char) :=
  let h := cs.takeWhile (fun c => c ≠ '/')
  if h = [] then none
  else
    let rest := cs.drop h.length
    if rest = [] then some h
    else if (rest.drop 1).all (fun c => !isLineTerm c) then some (h ++ rest)
    else none

/-- The JS fallback for host+path extraction (background.js lines 300-305 and
357-361), with scheme-prefix backtracking; a failed match yields the URL itself. -/
def manualHostPath (url : String) : String :=
  let cs := url.data
  let attempt :=
    if "https://".data.isPrefixOf cs then
      (manualHostPathFrom (cs.drop 8)).orElse (fun _ => manualHostPathFrom cs)
    else if "http://".data.isPrefixOf cs then
      (manualHostPathFrom (cs.drop 7)).orElse (fun _ => manualHostPathFrom cs)
    else manualHostPathFrom cs
  match attempt with
  | some r => ⟨r⟩
  | none => url

/-- background.js `getUrlPath` (lines 351-363): `hostname + pathname` of the
parsed URL, falling back to the manual regex extraction. -/
def getUrlPath (url : String) : String :=
  match parseURL url with
  | some u => u.hostname ++ u.pathname
  | none => manualHostPath url

/-! ## Pattern compilation (background.js lines 319-334) -/

/-- The literal placeholder string the source substitutes for `*` before
escaping (background.js line 323). -/
def placeholderStr : String := "___WILDCARD_PLACEHOLDER___"

/-- The character class escaped by background.js line 328:
`[.+?^${}()|[\]\\]`. -/
def isRegexMeta (c : Char) : Bool :=
  c = '.' || c = '+' || c = '?' || c = '^' || c = '$' || c = '\x7b' ||
  c = '\x7d' || c = '(' || c = ')' || c = '|' || c = '[' || c = ']' || c = '\\'

/-- JS global `String.replace` with a literal search string: replace all
non-overlapping occurrences, scanning left to right.  `fuel` bounds the
recursion; the wrapper supplies `s.length`, which is always sufficient since
every step consumes at least one character. -/
def replaceAllFuel (pat rep : List Char) : Nat → List Char → List Char
  | _, [] => []
  | 0, s => s
  | fuel + 1, c :: rest =>
    if pat.isPrefixOf (c :: rest) && !pat.isEmpty then
      rep ++ replaceAllFuel pat rep fuel ((c :: rest).drop pat.length)
    else
      c :: replaceAllFuel pat rep fuel rest

/-- JS global `String.replace` with a literal search string. -/
def replaceAll (pat rep s : List Char) : List Char :=
  replaceAllFuel pat rep s.length s

/-- Regex escaping from background.js line 327-328: prefix every character of
the escaped class with a backslash. -/
def escapeChars : List Char → List Char
  | [] => []
  | c :: rest =>
    if isRegexMeta c then '\\' :: c :: escapeChars rest
    else c :: escapeChars rest

/-- The body of the regex built at background.js lines 323-331 (without the
surrounding `^`/`$`, which the matcher below realizes as whole-string
matching): replace each `*` by the placeholder, escape the metacharacters,
then replace every placeholder occurrence by `.*`. -/
def compileRegexBody (pattern : List Char) : List Char :=
  replaceAll placeholderStr.data ['.', '*']
    (escapeChars (replaceAll ['*'] placeholderStr.data pattern))

/-- The regex constructs that can occur in the compiled body: an (escaped or
plain) literal character, `.`, and `.*`. -/
inductive RPiece where
  | lit (c : Char)
  | anyChar
  | dotstar
deriving DecidableEq, Repr

/-- Parse the compiled regex body into its pieces, with JS meaning: `\c` is the
literal `c`, `.` followed by `*` is `.*`, a bare `.` matches any non-line-
terminator character, anything else is a literal.  (In the image of
`compileRegexBody` every `.` belongs to an inserted `.*` and every
metacharacter is escaped, so these four cases are exhaustive for it.) -/
def parsePieces : List Char → List RPiece
  | [] => []
  | c :: rest =>
    if c = '\\' then
      match rest with
      | [] => [RPiece.lit '\\']
      | d :: rest2 => RPiece.lit d :: parsePieces rest2
    else if c = '.' then
      match rest with
      | [] => [RPiece.anyChar]
      | d :: rest2 =>
        if d = '*' then RPiece.dotstar :: parsePieces rest2
        else RPiece.anyChar :: parsePieces (d :: rest2)
    else RPiece.lit c :: parsePieces rest

/-- Anchored regex matching with JS semantics for the pieces above; `.`/`.*`
do not match line terminators.  `fuel` bounds the recursion; the wrapper
supplies `pieces + target + 1`, sufficient since every step consumes a piece
or a target character. -/
def rmatchFuel : Nat → List RPiece → List Char → Bool
  | 0, _, _ => false
  | _ + 1, [], [] => true
  | _ + 1, [], _ :: _ => false
  | _ + 1, RPiece.lit _ :: _, [] => false
  | fuel + 1, RPiece.lit c :: ps, t :: ts2 => c == t && rmatchFuel fuel ps ts2
  | _ + 1, RPiece.anyChar :: _, [] => false
  | fuel + 1, RPiece.anyChar :: ps, t :: ts2 => !isLineTerm t && rmatchFuel fuel ps ts2
  | fuel + 1, RPiece.dotstar :: ps, [] => rmatchFuel fuel ps []
  | fuel + 1, RPiece.dotstar :: ps, t :: ts2 =>
    rmatchFuel fuel ps (t :: ts2) || (!isLineTerm t && rmatchFuel fuel (RPiece.dotstar :: ps) ts2)

/-- Whole-string (`^...$`-anchored) match of a piece list against a target. -/
def rmatch (ps : List RPiece) (ts : List Char) : Bool :=
  rmatchFuel (ps.length + ts.length + 1) ps ts

/-- Test a user pattern against an already-extracted target string: compile the
pattern as background.js lines 319-333 do and match the whole target. -/
def testPattern (pattern target : String) : Bool :=
  rmatch (parsePieces (compileRegexBody pattern.data)) target.data

/-- Target extraction of `matchesPattern` when the pattern has no `/`
(background.js lines 307-317): hostname of the URL (with `https://` prepended
when the URL does not start with `http`), falling back to the manual regex. -/
def hostTarget (url : String) : String :=
  match parseURL (if strStartsWith url "http" then url else "https://" ++ url) with
  | some u => u.hostname
  | none => manualHost url

/-- Target extraction of `matchesPattern` when the pattern contains a `/`
(background.js lines 292-306): hostname + pathname, same fallback scheme. -/
def hostPathTarget (url : String) : String :=
  match parseURL (if strStartsWith url "http" then url else "https://" ++ url) with
  | some u => u.hostname ++ u.pathname
  | none => manualHostPath url

/-- background.js `matchesPattern` (lines 287-339).  The surrounding
`try`/`catch` of the source has no remaining failure in this model: every
branch is total. -/
def matchesPattern (url pattern : String) : Bool :=
  let target := if strContains pattern '/' then hostPathTarget url else hostTarget url
  testPattern pattern target


/-! ## Data model (spec section 3; stored records read by background.js) -/

/-- Script injection timing (`document_start` / `document_end` /
`document_idle`), the three values `executeScriptWithTiming` acts on. -/
inductive Timing where
  | document_start
  | document_end
  | document_idle
deriving DecidableEq, Repr

/-- One `{timing, code}` block of a GlobalScript. -/
structure ScriptCode where
  code : String
  timing : Timing
deriving DecidableEq, Repr

/-- When a global script runs (`whenToRun`). -/
inductive WhenToRun where
  | on_site_open
  | navigating_in
  | navigating_out
deriving DecidableEq, Repr

/-- A stored GlobalScript record. -/
structure GlobalScript where
  id : String
  name : String
  whenToRun : WhenToRun
  domainPattern : String
  onRefresh : Bool
  confirmPopup : Bool
  scripts : List ScriptCode
deriving DecidableEq, Repr

/-- A site-bound Script record.  `runAlways : Option Bool` models the JS field
that may be `undefined` (`none`) for records written by earlier versions; the
source treats only the literal `false` as "launcher-gated"
(`script.runAlways !== false`). -/
structure SiteScript where
  timing : Timing
  code : String
  runAlways : Option Bool
  confirmPopup : Bool
deriving DecidableEq, Repr

/-- A stored Site record (the fields the background worker reads). -/
structure Site where
  id : String
  name : String
  url : String
  scripts : List SiteScript
deriving DecidableEq, Repr

/-- Navigation classification stored in `tabNavigationTypes`. -/
inductive NavType where
  | refresh
  | navigation
  | direct
deriving DecidableEq, Repr

/-! ## Association-list maps (JS `Map` / storage objects) -/

/-- JS `Map.get` / keyed storage read. -/
def mapGet [DecidableEq κ] (m : List (κ × α)) (k : κ) : Option α :=
  match m with
  | [] => none
  | kv :: rest => if kv.1 = k then some kv.2 else mapGet rest k

/-- JS `Map.set`: update in place, or append a fresh key. -/
def mapSet [DecidableEq κ] (m : List (κ × α)) (k : κ) (v : α) : List (κ × α) :=
  match m with
  | [] => [(k, v)]
  | kv :: rest => if kv.1 = k then (k, v) :: rest else kv :: mapSet rest k v

/-- JS `Map.delete` / `chrome.storage.session.remove`. -/
def mapRemove [DecidableEq κ] (m : List (κ × α)) (k : κ) : List (κ × α) :=
  match m with
  | [] => []
  | kv :: rest => if kv.1 = k then mapRemove rest k else kv :: mapRemove rest k

/-- The three per-tab in-memory maps of background.js lines 6-10. -/
structure TabMaps where
  prevUrls : List (Nat × String)
  navTypes : List (Nat × NavType)
  navPrevUrls : List (Nat × String)
deriving DecidableEq, Repr

/-! ## Navigation classification (background.js lines 368-388) -/

/-- Classify one observed URL change given the tracked previous URL
(background.js lines 380-388).  An empty previous URL stands for the JS
falsiness of both `''` and `null` in `previousUrl ? getHostname(previousUrl)
: null`, under which the hostname check short-circuits. -/
def classifyNav (previousUrl currentUrl : String) : NavType :=
  let currentHostname := getHostname currentUrl
  let previousHostname := if previousUrl = "" then "" else getHostname previousUrl
  if previousUrl = currentUrl then NavType.refresh
  else if previousHostname ≠ "" && previousHostname ≠ currentHostname then NavType.navigation
  else NavType.direct

/-! ## The rule-evaluation loops -/

/-- The per-rule `urlToMatch` of the global loops (background.js lines 403-404
and 525-526): host+path of the URL when the pattern contains `/`, otherwise
the already-computed hostname. -/
def urlToMatchOf (gs : GlobalScript) (url hostname : String) : String :=
  if strContains gs.domainPattern '/' then getUrlPath url else hostname

/-- The `navigating_out` evaluation at a cross-origin departure
(background.js lines 397-429), against the departing URL/hostname.  Returns
the rules whose scripts were injected and the confirm-oracle counter after the
loop. -/
def departureLoop (confirm : Nat → Bool) (previousUrl previousHostname : String) :
    List GlobalScript → Nat → List GlobalScript × Nat
  | [], k => ([], k)
  | gs :: rest, k =>
    if gs.whenToRun ≠ WhenToRun.navigating_out then
      departureLoop confirm previousUrl previousHostname rest k
    else if !matchesPattern (urlToMatchOf gs previousUrl previousHostname) gs.domainPattern then
      departureLoop confirm previousUrl previousHostname rest k
    else if gs.onRefresh then
      departureLoop confirm previousUrl previousHostname rest k
    else if gs.scripts.isEmpty then
      departureLoop confirm previousUrl previousHostname rest k
    else if gs.confirmPopup then
      if confirm k then
        let r := departureLoop confirm previousUrl previousHostname rest (k + 1)
        (gs :: r.1, r.2)
      else departureLoop confirm previousUrl previousHostname rest (k + 1)
    else
      let r := departureLoop confirm previousUrl previousHostname rest k
      (gs :: r.1, r.2)

/-- The URL-change phase of the listener (background.js lines 368-437), for a
nonempty `currentUrl` (= `tab.url`): record the in-flight previous URL,
classify the navigation, run `navigating_out` rules on a cross-origin
departure, then overwrite the tracked previous URL. -/
def urlChangePhase (confirm : Nat → Bool) (globalScripts : List GlobalScript)
    (tabId : Nat) (currentUrl : String) (maps : TabMaps) (k : Nat) :
    TabMaps × List GlobalScript × Nat :=
  match mapGet maps.prevUrls tabId with
  | none =>
    -- no tracked previous URL: `undefined === currentUrl` is false and the
    -- null previous hostname short-circuits, so the type is always `direct`
    (⟨mapSet maps.prevUrls tabId currentUrl,
      mapSet maps.navTypes tabId NavType.direct,
      maps.navPrevUrls⟩, [], k)
  | some p =>
    let currentHostname := getHostname currentUrl
    let previousHostname := if p = "" then "" else getHostname p
    let navPrev := if p = "" then maps.navPrevUrls else mapSet maps.navPrevUrls tabId p
    let navType := classifyNav p currentUrl
    let dep :=
      if previousHostname ≠ "" && previousHostname ≠ currentHostname then
        departureLoop confirm p previousHostname globalScripts k
      else ([], k)
    (⟨mapSet maps.prevUrls tabId currentUrl, mapSet maps.navTypes tabId navType, navPrev⟩,
     dep.1, dep.2)

/-- The site-script loop (background.js lines 492-513): gate each script on
`runAlways !== false || openedViaLauncher`, then on its confirm popup. -/
def siteScriptsLoop (confirm : Nat → Bool) (openedViaLauncher : Bool) :
    List SiteScript → Nat → List SiteScript × Nat
  | [], k => ([], k)
  | s :: rest, k =>
    if s.runAlways = some false && !openedViaLauncher then
      siteScriptsLoop confirm openedViaLauncher rest k
    else if s.confirmPopup then
      if confirm k then
        let r := siteScriptsLoop confirm openedViaLauncher rest (k + 1)
        (s :: r.1, r.2)
      else siteScriptsLoop confirm openedViaLauncher rest (k + 1)
    else
      let r := siteScriptsLoop confirm openedViaLauncher rest k
      (s :: r.1, r.2)

/-- Origin matching of the site lookup (background.js lines 475-484):
`new URL(site.url).origin === new URL(tab.url).origin`, `false` when either
parse throws. -/
def siteOriginMatches (siteUrl tabUrl : String) : Bool :=
  match parseURL siteUrl, parseURL tabUrl with
  | some a, some b => a.scheme ++ "://" ++ a.host = b.scheme ++ "://" ++ b.host
  | _, _ => false

/-- The site-specific block of the load-complete handler (background.js lines
486-519): read the launcher marker once, run the script loop, then clear the
marker — all of it only when the matched site has a nonempty script list.
Returns executed scripts, the session store afterwards, and the confirm
counter. -/
def sitePhase (confirm : Nat → Bool) (matchingSite : Option Site)
    (session : List (String × Bool)) (k : Nat) :
    List SiteScript × List (String × Bool) × Nat :=
  match matchingSite with
  | none => ([], session, k)
  | some site =>
    if site.scripts.isEmpty then ([], session, k)
    else
      let key := "launcher_opened_" ++ site.id
      let openedViaLauncher := mapGet session key = some true
      let r := siteScriptsLoop confirm openedViaLauncher site.scripts k
      (r.1, if openedViaLauncher then mapRemove session key else session, r.2)

/-- `openedViaLauncher` of the global loop (background.js lines 548-551): some
session key starting with `launcher_opened_` holds `true`, for any site. -/
def anyLauncherOpened (session : List (String × Bool)) : Bool :=
  session.any (fun kv => strStartsWith kv.1 "launcher_opened_" && kv.2)

/-- The `shouldRun` trigger decision of the global loop (background.js lines
533-562): the `onRefresh` override, the refresh skip, then the `whenToRun`
trigger (`navigating_out` is deferred to the departure handler, i.e. skipped). -/
def globalShouldRun (gs : GlobalScript) (navigationType : NavType)
    (session : List (String × Bool)) : Bool :=
  let isRefresh := navigationType = NavType.refresh
  if gs.onRefresh && isRefresh then true
  else if !gs.onRefresh && isRefresh then false
  else
    match gs.whenToRun with
    | WhenToRun.on_site_open => anyLauncherOpened session
    | WhenToRun.navigating_in => true
    | WhenToRun.navigating_out => false

/-- The global-script loop of the load-complete handler (background.js lines
522-583): pattern gate, trigger decision, nonempty scripts, confirm gate. -/
def globalLoop (confirm : Nat → Bool) (navigationType : NavType)
    (currentUrl currentHostname : String) (session : List (String × Bool)) :
    List GlobalScript → Nat → List GlobalScript × Nat
  | [], k => ([], k)
  | gs :: rest, k =>
    if !matchesPattern (urlToMatchOf gs currentUrl currentHostname) gs.domainPattern then
      globalLoop confirm navigationType currentUrl currentHostname session rest k
    else if !globalShouldRun gs navigationType session then
      globalLoop confirm navigationType currentUrl currentHostname session rest k
    else if gs.scripts.isEmpty then
      globalLoop confirm navigationType currentUrl currentHostname session rest k
    else if gs.confirmPopup then
      if confirm k then
        let r := globalLoop confirm navigationType currentUrl currentHostname session rest (k + 1)
        (gs :: r.1, r.2)
      else globalLoop confirm navigationType currentUrl currentHostname session rest (k + 1)
    else
      let r := globalLoop confirm navigationType currentUrl currentHostname session rest k
      (gs :: r.1, r.2)

/-- URLs skipped by the load-complete handler (background.js lines 444-449):
`chrome://`, `chrome-extension://` and `about:` prefixes — and only those. -/
def internalPage (url : String) : Bool :=
  strStartsWith url "chrome://" || strStartsWith url "chrome-extension://" ||
    strStartsWith url "about:"

/-- Output of the load-complete phase. -/
structure CompleteOut where
  maps : TabMaps
  session : List (String × Bool)
  executedSite : List SiteScript
  executedGlobals : List GlobalScript
  counter : Nat
deriving DecidableEq, Repr

/-- The load-complete phase of the listener (background.js lines 440-583), for
a nonempty `tabUrl` with `changeInfo.status === 'complete'`: skip internal
pages, update/clear the tracked URLs, run the site block, then the global
loop.  The global loop reads the session store after the site block's marker
removal, as the `await` ordering of the source does. -/
def completePhase (confirm : Nat → Bool) (sites : List Site)
    (globalScripts : List GlobalScript) (tabId : Nat) (tabUrl : String)
    (maps : TabMaps) (session : List (String × Bool)) (k : Nat) : CompleteOut :=
  if internalPage tabUrl then ⟨maps, session, [], [], k⟩
  else
    let currentUrl := tabUrl
    let currentHostname := getHostname currentUrl
    let navigationType := (mapGet maps.navTypes tabId).getD NavType.direct
    let maps1 : TabMaps :=
      ⟨mapSet maps.prevUrls tabId currentUrl, maps.navTypes,
        mapRemove maps.navPrevUrls tabId⟩
    let s := sitePhase confirm (sites.find? (fun site => siteOriginMatches site.url currentUrl)) session k
    let g := globalLoop confirm navigationType currentUrl currentHostname s.2.1 globalScripts s.2.2
    ⟨maps1, s.2.1, s.1, g.1, g.2⟩

/-- A `chrome.tabs.onUpdated` event: tab id, the `changeInfo` fields the
listener reads, and `tab.url` (`""` modelling a falsy/absent URL). -/
structure UpdateEvent where
  tabId : Nat
  changeStatus : Option String
  changeUrl : Option String
  tabUrl : String
deriving DecidableEq, Repr

/-- The persisted configuration read from `chrome.storage.local`. -/
structure Stores where
  sites : List Site
  globalScripts : List GlobalScript
deriving DecidableEq, Repr

/-- Result of one listener invocation. -/
structure ListenerOutput where
  maps : TabMaps
  session : List (String × Bool)
  executedSite : List SiteScript
  executedGlobals : List GlobalScript
deriving DecidableEq, Repr

/-- The guard of the URL-change phase inside the `chrome.tabs.onUpdated`
listener (background.js line 368): the phase runs only when the event carries
a truthy URL and `tab.url` is truthy. -/
def eventUrlPhase (confirm : Nat → Bool) (stores : Stores) (ev : UpdateEvent)
    (maps : TabMaps) : TabMaps × List GlobalScript × Nat :=
  match ev.changeUrl with
  | some u =>
    if u ≠ "" && ev.tabUrl ≠ "" then
      urlChangePhase confirm stores.globalScripts ev.tabId ev.tabUrl maps 0
    else (maps, [], 0)
  | none => (maps, [], 0)

/-- The whole listener, combining both phases (see `eventUrlPhase` for the
guard of the first phase). -/
def onUpdated (confirm : Nat → Bool) (stores : Stores) (ev : UpdateEvent)
    (maps : TabMaps) (session : List (String × Bool)) : ListenerOutput :=
  let p1 := eventUrlPhase confirm stores ev maps
  if ev.changeStatus = some "complete" && ev.tabUrl ≠ "" then
    let c := completePhase confirm stores.sites stores.globalScripts ev.tabId ev.tabUrl
      p1.1 session p1.2.2
    ⟨c.maps, c.session, c.executedSite, p1.2.1 ++ c.executedGlobals⟩
  else ⟨p1.1, session, [], p1.2.1⟩

/-- The tab-close cleanup listener (background.js lines 591-595). -/
def onRemoved (tabId : Nat) (maps : TabMaps) : TabMaps :=
  ⟨mapRemove maps.prevUrls tabId, mapRemove maps.navTypes tabId,
    mapRemove maps.navPrevUrls tabId⟩

/-! ## Helper lemmas: association-list maps -/

lemma mapGet_mapSet_self [DecidableEq κ] (m : List (κ × α)) (k : κ) (v : α) :
    mapGet (mapSet m k v) k = some v := by
  induction m with
  | nil => simp [mapGet, mapSet]
  | cons kv rest ih =>
    by_cases h : kv.1 = k
    · simp [mapSet, mapGet, h]
    · simp [mapSet, mapGet, h, ih]

lemma mapGet_mapRemove_self [DecidableEq κ] (m : List (κ × α)) (k : κ) :
    mapGet (mapRemove m k) k = none := by
  induction m with
  | nil => simp [mapGet, mapRemove]
  | cons kv rest ih =>
    by_cases h : kv.1 = k
    · simp [mapRemove, h, ih]
    · simp [mapRemove, mapGet, h, ih]

/-! ## Helper lemmas: the trigger decision -/

lemma globalShouldRun_refresh_skip (gs : GlobalScript) (session : List (String × Bool))
    (h : gs.onRefresh = false) :
    globalShouldRun gs NavType.refresh session = false := by
  simp [globalShouldRun, h]

lemma globalShouldRun_refresh_override (gs : GlobalScript) (session : List (String × Bool))
    (h : gs.onRefresh = true) :
    globalShouldRun gs NavType.refresh session = true := by
  simp [globalShouldRun, h]

lemma globalShouldRun_navigating_out (gs : GlobalScript) (nav : NavType)
    (session : List (String × Bool)) (h : gs.whenToRun = WhenToRun.navigating_out)
    (h2 : nav ≠ NavType.refresh) :
    globalShouldRun gs nav session = false := by
  simp [globalShouldRun, h, h2]

lemma globalShouldRun_on_site_open (gs : GlobalScript) (nav : NavType)
    (session : List (String × Bool)) (h : gs.whenToRun = WhenToRun.on_site_open)
    (h2 : nav ≠ NavType.refresh) :
    globalShouldRun gs nav session = anyLauncherOpened session := by
  simp [globalShouldRun, h, h2]

/-! ## Helper lemmas: what the loops can execute -/

lemma globalLoop_mem (confirm : Nat → Bool) (nav : NavType) (curUrl curHost : String)
    (session : List (String × Bool)) :
    ∀ (L : List GlobalScript) (k : Nat) (gs : GlobalScript),
      gs ∈ (globalLoop confirm nav curUrl curHost session L k).1 →
      globalShouldRun gs nav session = true ∧ gs.scripts.isEmpty = false ∧
        matchesPattern (urlToMatchOf gs curUrl curHost) gs.domainPattern = true := by
  intro L
  induction L with
  | nil => intro k gs h; simp [globalLoop] at h
  | cons g rest ih =>
    intro k gs hmem
    rw [globalLoop] at hmem
    cases h1 : matchesPattern (urlToMatchOf g curUrl curHost) g.domainPattern with
    | false => simp [h1] at hmem; exact ih _ _ hmem
    | true =>
      cases h2 : globalShouldRun g nav session with
      | false => simp [h1, h2] at hmem; exact ih _ _ hmem
      | true =>
        cases h3 : g.scripts.isEmpty with
        | true => simp [h1, h2, h3] at hmem; exact ih _ _ hmem
        | false =>
          cases h4 : g.confirmPopup with
          | true =>
            cases h5 : confirm k with
            | false => simp [h1, h2, h3, h4, h5] at hmem; exact ih _ _ hmem
            | true =>
              simp [h1, h2, h3, h4, h5] at hmem
              rcases hmem with rfl | hmem
              · exact ⟨h2, h3, h1⟩
              · exact ih _ _ hmem
          | false =>
            simp [h1, h2, h3, h4] at hmem
            rcases hmem with rfl | hmem
            · exact ⟨h2, h3, h1⟩
            · exact ih _ _ hmem

lemma departureLoop_mem (confirm : Nat → Bool) (pu ph : String) :
    ∀ (L : List GlobalScript) (k : Nat) (gs : GlobalScript),
      gs ∈ (departureLoop confirm pu ph L k).1 →
      gs.whenToRun = WhenToRun.navigating_out ∧ gs.onRefresh = false := by
  intro L
  induction L with
  | nil => intro k gs h; simp [departureLoop] at h
  | cons g rest ih =>
    intro k gs hmem
    rw [departureLoop] at hmem
    by_cases h1 : g.whenToRun = WhenToRun.navigating_out
    · cases h2 : matchesPattern (urlToMatchOf g pu ph) g.domainPattern with
      | false => simp [h1, h2] at hmem; exact ih _ _ hmem
      | true =>
        cases h3 : g.onRefresh with
        | true => simp [h1, h2, h3] at hmem; exact ih _ _ hmem
        | false =>
          cases h4 : g.scripts.isEmpty with
          | true => simp [h1, h2, h3, h4] at hmem; exact ih _ _ hmem
          | false =>
            cases h5 : g.confirmPopup with
            | true =>
              cases h6 : confirm k with
              | false => simp [h1, h2, h3, h4, h5, h6] at hmem; exact ih _ _ hmem
              | true =>
                simp [h1, h2, h3, h4, h5, h6] at hmem
                rcases hmem with rfl | hmem
                · exact ⟨h1, h3⟩
                · exact ih _ _ hmem
            | false =>
              simp [h1, h2, h3, h4, h5] at hmem
              rcases hmem with rfl | hmem
              · exact ⟨h1, h3⟩
              · exact ih _ _ hmem
    · simp [h1] at hmem; exact ih _ _ hmem

lemma siteScriptsLoop_mem (confirm : Nat → Bool) (opened : Bool) :
    ∀ (L : List SiteScript) (k : Nat) (s : SiteScript),
      s ∈ (siteScriptsLoop confirm opened L k).1 →
      (s.runAlways = some false → opened = true) := by
  cases opened with
  | true => exact fun L k s _ _ => rfl
  | false =>
    intro L
    induction L with
    | nil => intro k s h; simp [siteScriptsLoop] at h
    | cons g rest ih =>
      intro k s hmem
      rw [siteScriptsLoop] at hmem
      by_cases h1 : g.runAlways = some false
      · simp [h1] at hmem; exact ih _ _ hmem
      · cases h2 : g.confirmPopup with
        | true =>
          cases h3 : confirm k with
          | false => simp [h1, h2, h3] at hmem; exact ih _ _ hmem
          | true =>
            simp [h1, h2, h3] at hmem
            rcases hmem with rfl | hmem
            · exact fun hra => absurd hra h1
            · exact ih _ _ hmem
        | false =>
          simp [h1, h2] at hmem
          rcases hmem with rfl | hmem
          · exact fun hra => absurd hra h1
          · exact ih _ _ hmem

/-! ## Helper lemmas: the listener phases -/

lemma urlChangePhase_same_url (confirm : Nat → Bool) (G : List GlobalScript)
    (tabId : Nat) (u : String) (maps : TabMaps) (k : Nat)
    (h : mapGet maps.prevUrls tabId = some u) :
    (urlChangePhase confirm G tabId u maps k).2.1 = [] ∧
    (urlChangePhase confirm G tabId u maps k).2.2 = k ∧
    (urlChangePhase confirm G tabId u maps k).1.navTypes =
      mapSet maps.navTypes tabId NavType.refresh := by
  by_cases hu : u = ""
  · subst hu; simp [urlChangePhase, h, classifyNav]
  · simp [urlChangePhase, h, classifyNav, hu]

lemma completePhase_globals_mem (confirm : Nat → Bool) (sites : List Site)
    (globals : List GlobalScript) (tabId : Nat) (tabUrl : String) (maps : TabMaps)
    (session : List (String × Bool)) (k : Nat) (gs : GlobalScript)
    (hmem : gs ∈ (completePhase confirm sites globals tabId tabUrl maps session k).executedGlobals) :
    internalPage tabUrl = false ∧
    ∃ sess2 k2, gs ∈ (globalLoop confirm ((mapGet maps.navTypes tabId).getD NavType.direct)
      tabUrl (getHostname tabUrl) sess2 globals k2).1 := by
  by_cases hint : internalPage tabUrl = true
  · rw [completePhase] at hmem
    simp [hint] at hmem
  · rw [completePhase] at hmem
    rw [Bool.not_eq_true] at hint
    simp only [hint, Bool.false_eq_true, if_false] at hmem
    exact ⟨hint, _, _, hmem⟩

lemma completePhase_site_shape (confirm : Nat → Bool) (sites : List Site)
    (globals : List GlobalScript) (tabId : Nat) (tabUrl : String) (maps : TabMaps)
    (session : List (String × Bool)) (k : Nat) (site : Site)
    (hint : internalPage tabUrl = false)
    (hfind : sites.find? (fun s => siteOriginMatches s.url tabUrl) = some site)
    (hne : site.scripts.isEmpty = false) :
    (completePhase confirm sites globals tabId tabUrl maps session k).executedSite =
      (siteScriptsLoop confirm
        (decide (mapGet session ("launcher_opened_" ++ site.id) = some true)) site.scripts k).1 ∧
    (completePhase confirm sites globals tabId tabUrl maps session k).session =
      (if mapGet session ("launcher_opened_" ++ site.id) = some true
       then mapRemove session ("launcher_opened_" ++ site.id) else session) := by
  rw [completePhase]
  simp only [hint, Bool.false_eq_true, if_false, hfind]
  rw [sitePhase]
  simp only [hne, Bool.false_eq_true, if_false]
  constructor <;> first | rfl | trivial

lemma eventUrlPhase_some (confirm : Nat → Bool) (stores : Stores) (ev : UpdateEvent)
    (maps : TabMaps) (hcu : ev.changeUrl = some ev.tabUrl) (htu : ev.tabUrl ≠ "") :
    eventUrlPhase confirm stores ev maps =
      urlChangePhase confirm stores.globalScripts ev.tabId ev.tabUrl maps 0 := by
  rw [eventUrlPhase, hcu]
  simp [htu]

lemma eventUrlPhase_none (confirm : Nat → Bool) (stores : Stores) (ev : UpdateEvent)
    (maps : TabMaps) (hcu : ev.changeUrl = none) :
    eventUrlPhase confirm stores ev maps = (maps, [], 0) := by
  rw [eventUrlPhase, hcu]

lemma onUpdated_executedGlobals (confirm : Nat → Bool) (stores : Stores) (ev : UpdateEvent)
    (maps : TabMaps) (session : List (String × Bool)) :
    (onUpdated confirm stores ev maps session).executedGlobals =
      if ev.changeStatus = some "complete" && ev.tabUrl ≠ "" then
        (eventUrlPhase confirm stores ev maps).2.1 ++
          (completePhase confirm stores.sites stores.globalScripts ev.tabId ev.tabUrl
            (eventUrlPhase confirm stores ev maps).1 session
            (eventUrlPhase confirm stores ev maps).2.2).executedGlobals
      else (eventUrlPhase confirm stores ev maps).2.1 := by
  rw [onUpdated]
  split <;> rfl

/-! ## C2 -/

/-- C2: a stored GlobalScript with `onRefresh = false` is never executed for a
load whose navigation is classified `refresh`: (i) the load-complete global
loop never runs it under a `refresh` classification; (ii) for a whole
same-URL-reload listener event (the event URL equals both `tab.url` and the
tracked previous URL) the listener executes no such rule at all; and (iii) in
the refresh case the decision does not even consult `whenToRun` — replacing it
by any other value leaves the decision unchanged. -/
theorem C2_onRefresh_false_never_runs_on_refresh :
    (∀ (confirm : Nat → Bool) (nav : NavType) (curUrl curHost : String)
       (session : List (String × Bool)) (L : List GlobalScript) (k : Nat) (gs : GlobalScript),
       gs.onRefresh = false → nav = NavType.refresh →
       gs ∉ (globalLoop confirm nav curUrl curHost session L k).1) ∧
    (∀ (confirm : Nat → Bool) (stores : Stores) (ev : UpdateEvent) (maps : TabMaps)
       (session : List (String × Bool)) (gs : GlobalScript),
       gs.onRefresh = false → ev.changeUrl = some ev.tabUrl → ev.tabUrl ≠ "" →
       mapGet maps.prevUrls ev.tabId = some ev.tabUrl →
       gs ∉ (onUpdated confirm stores ev maps session).executedGlobals) ∧
    (∀ (gs : GlobalScript) (w : WhenToRun) (session : List (String × Bool)),
       gs.onRefresh = false →
       globalShouldRun { gs with whenToRun := w } NavType.refresh session =
         globalShouldRun gs NavType.refresh session) := by
  have loopPart : ∀ (confirm : Nat → Bool) (nav : NavType) (curUrl curHost : String)
      (session : List (String × Bool)) (L : List GlobalScript) (k : Nat) (gs : GlobalScript),
      gs.onRefresh = false → nav = NavType.refresh →
      gs ∉ (globalLoop confirm nav curUrl curHost session L k).1 := by
    intro confirm nav curUrl curHost session L k gs hor hnav hmem
    subst hnav
    have h := (globalLoop_mem confirm NavType.refresh curUrl curHost session L k gs hmem).1
    rw [globalShouldRun_refresh_skip gs session hor] at h
    exact Bool.false_ne_true h
  refine ⟨loopPart, ?_, ?_⟩
  · intro confirm stores ev maps session gs hor hcu htu hprev hmem
    have hphase := urlChangePhase_same_url confirm stores.globalScripts ev.tabId ev.tabUrl maps 0 hprev
    rw [onUpdated_executedGlobals,
      eventUrlPhase_some confirm stores ev maps hcu htu] at hmem
    by_cases hst : (decide (ev.changeStatus = some "complete") && decide (ev.tabUrl ≠ "")) = true
    · rw [if_pos hst, hphase.1] at hmem
      simp only [List.nil_append] at hmem
      obtain ⟨-, sess2, k2, hloop⟩ :=
        completePhase_globals_mem confirm stores.sites stores.globalScripts ev.tabId ev.tabUrl
          _ session _ gs hmem
      rw [hphase.2.2, mapGet_mapSet_self] at hloop
      exact loopPart confirm NavType.refresh ev.tabUrl (getHostname ev.tabUrl)
        sess2 stores.globalScripts k2 gs hor rfl hloop
    · rw [if_neg hst, hphase.1] at hmem
      exact (List.not_mem_nil gs) hmem
  · intro gs w session hor
    rw [globalShouldRun_refresh_skip _ _ hor,
      globalShouldRun_refresh_skip ({ gs with whenToRun := w }) session (by simpa using hor)]

/-- C2 witness: a concrete same-URL reload event with a stored `navigating_in`
global rule with `onRefresh = false` and a matching pattern executes nothing. -/
theorem C2_witness :
    (⟨"g1", "G", WhenToRun.navigating_in, "*", false, false,
        [⟨"code", Timing.document_start⟩]⟩ : GlobalScript) ∉
      (onUpdated (fun _ => true)
        ⟨[], [⟨"g1", "G", WhenToRun.navigating_in, "*", false, false,
          [⟨"code", Timing.document_start⟩]⟩]⟩
        ⟨0, some "complete", some "https://a.com", "https://a.com"⟩
        ⟨[(0, "https://a.com")], [], []⟩ []).executedGlobals := by
  exact C2_onRefresh_false_never_runs_on_refresh.2.1 (fun _ => true)
    ⟨[], [⟨"g1", "G", WhenToRun.navigating_in, "*", false, false,
      [⟨"code", Timing.document_start⟩]⟩]⟩
    ⟨0, some "complete", some "https://a.com", "https://a.com"⟩
    ⟨[(0, "https://a.com")], [], []⟩ []
    ⟨"g1", "G", WhenToRun.navigating_in, "*", false, false,
      [⟨"code", Timing.document_start⟩]⟩
    rfl rfl (by decide) (by decide)

/-! ## C6 -/

/-- C6: for a non-refresh load, an `on_site_open` global rule is gated on the
existence of *some* session key `launcher_opened_*` with value `true` — any
site's marker, not specifically the loaded site's: (i) the trigger decision
equals `anyLauncherOpened`; (ii) for a matching pattern, nonempty scripts and
no confirm popup, the rule executes iff such a marker exists. -/
theorem C6_on_site_open_any_marker :
    (∀ (gs : GlobalScript) (nav : NavType) (session : List (String × Bool)),
       nav ≠ NavType.refresh → gs.whenToRun = WhenToRun.on_site_open →
       globalShouldRun gs nav session = anyLauncherOpened session) ∧
    (∀ (confirm : Nat → Bool) (gs : GlobalScript) (nav : NavType)
       (curUrl curHost : String) (session : List (String × Bool)) (k : Nat),
       nav ≠ NavType.refresh → gs.whenToRun = WhenToRun.on_site_open →
       gs.scripts.isEmpty = false → gs.confirmPopup = false →
       matchesPattern (urlToMatchOf gs curUrl curHost) gs.domainPattern = true →
       (globalLoop confirm nav curUrl curHost session [gs] k).1 =
         if anyLauncherOpened session then [gs] else []) := by
  refine ⟨fun gs nav session hnav hw => globalShouldRun_on_site_open gs nav session hw hnav, ?_⟩
  intro confirm gs nav curUrl curHost session k hnav hw hne hcp hm
  have hsr := globalShouldRun_on_site_open gs nav session hw hnav
  rw [globalLoop]
  cases hA : anyLauncherOpened session with
  | true => rw [hA] at hsr; simp [hm, hsr, hne, hcp, globalLoop]
  | false => rw [hA] at hsr; simp [hm, hsr, hne, hcp, globalLoop]

/-- C6 witness: with the session marker of an unrelated site
(`launcher_opened_other`) present, an `on_site_open` rule for `a.com` does
execute on a direct load of `a.com`. -/
theorem C6_witness :
    (globalLoop (fun _ => true) NavType.direct "https://a.com/x" "a.com"
      [("launcher_opened_other", true)]
      [⟨"g6", "G6", WhenToRun.on_site_open, "a.com", false, false,
        [⟨"c", Timing.document_start⟩]⟩] 0).1 =
      [⟨"g6", "G6", WhenToRun.on_site_open, "a.com", false, false,
        [⟨"c", Timing.document_start⟩]⟩] := by
  have h := C6_on_site_open_any_marker.2 (fun _ => true)
    ⟨"g6", "G6", WhenToRun.on_site_open, "a.com", false, false,
      [⟨"c", Timing.document_start⟩]⟩
    NavType.direct "https://a.com/x" "a.com" [("launcher_opened_other", true)] 0
    (by decide) rfl (by decide) rfl (by decide)
  rw [h]
  decide

/-! ## C8 -/

/-- C8: a rule with `confirmPopup` set has its code injected only when the
confirmation resolves positively (a negative resolution — Cancel, the
30-second timeout, or a closed tab — is the oracle answering `false`), and a
negative resolution skips exactly that rule: the remaining rules are
processed as they would have been, with the next oracle index.  Stated for
the global-script loop and for the site-script loop. -/
theorem C8_confirm_popup_gating :
    (∀ (confirm : Nat → Bool) (nav : NavType) (curUrl curHost : String)
       (session : List (String × Bool)) (gs : GlobalScript) (rest : List GlobalScript) (k : Nat),
       matchesPattern (urlToMatchOf gs curUrl curHost) gs.domainPattern = true →
       globalShouldRun gs nav session = true →
       gs.scripts.isEmpty = false → gs.confirmPopup = true →
       (confirm k = false →
          globalLoop confirm nav curUrl curHost session (gs :: rest) k =
            globalLoop confirm nav curUrl curHost session rest (k + 1)) ∧
       (confirm k = true →
          globalLoop confirm nav curUrl curHost session (gs :: rest) k =
            (gs :: (globalLoop confirm nav curUrl curHost session rest (k + 1)).1,
              (globalLoop confirm nav curUrl curHost session rest (k + 1)).2))) ∧
    (∀ (confirm : Nat → Bool) (opened : Bool) (s : SiteScript) (rest : List SiteScript) (k : Nat),
       (s.runAlways = some false → opened = true) → s.confirmPopup = true →
       (confirm k = false →
          siteScriptsLoop confirm opened (s :: rest) k =
            siteScriptsLoop confirm opened rest (k + 1)) ∧
       (confirm k = true →
          siteScriptsLoop confirm opened (s :: rest) k =
            (s :: (siteScriptsLoop confirm opened rest (k + 1)).1,
              (siteScriptsLoop confirm opened rest (k + 1)).2))) := by
  constructor
  · intro confirm nav curUrl curHost session gs rest k hm hsr hne hcp
    constructor
    · intro hconf
      rw [globalLoop]
      simp [hm, hsr, hne, hcp, hconf]
    · intro hconf
      rw [globalLoop]
      simp [hm, hsr, hne, hcp, hconf]
  · intro confirm opened s rest k hra hcp
    have hskip : (decide (s.runAlways = some false) && !opened) = false := by
      by_cases h : s.runAlways = some false
      · rw [hra h]; simp [h]
      · simp [h]
    constructor
    · intro hconf
      rw [siteScriptsLoop]
      simp [hskip, hcp, hconf]
    · intro hconf
      rw [siteScriptsLoop]
      simp [hskip, hcp, hconf]

/-- C8 witness: a denied confirmation skips the confirm-gated site script but
the following script of the same site still runs. -/
theorem C8_witness :
    siteScriptsLoop (fun _ => false) true
      [⟨Timing.document_start, "a", none, true⟩, ⟨Timing.document_end, "b", none, false⟩] 0 =
      ([⟨Timing.document_end, "b", none, false⟩], 1) := by
  have h := (C8_confirm_popup_gating.2 (fun _ => false) true
    ⟨Timing.document_start, "a", none, true⟩
    [⟨Timing.document_end, "b", none, false⟩] 0
    (by intro h; cases h) rfl).1 rfl
  rw [h]
  decide

/-! ## C9 -/

/-- C9 (amended): a GlobalScript with `whenToRun = navigating_out` and
`onRefresh = true` is never executed by the cross-origin-departure handler
(which skips `onRefresh` rules), and never executed by the load-complete
handler on a non-refresh load (which skips `navigating_out` rules); but on a
load classified `refresh` the `onRefresh` override at load-complete applies
before the `whenToRun` check, so such a rule with a matching pattern and
nonempty scripts does execute there. -/
theorem C9_navigating_out_onRefresh :
    (∀ (confirm : Nat → Bool) (pu ph : String) (L : List GlobalScript) (k : Nat) (gs : GlobalScript),
       gs.onRefresh = true → gs ∉ (departureLoop confirm pu ph L k).1) ∧
    (∀ (confirm : Nat → Bool) (nav : NavType) (curUrl curHost : String)
       (session : List (String × Bool)) (L : List GlobalScript) (k : Nat) (gs : GlobalScript),
       gs.whenToRun = WhenToRun.navigating_out → nav ≠ NavType.refresh →
       gs ∉ (globalLoop confirm nav curUrl curHost session L k).1) ∧
    (∀ (confirm : Nat → Bool) (curUrl curHost : String) (session : List (String × Bool))
       (rest : List GlobalScript) (k : Nat) (gs : GlobalScript),
       gs.whenToRun = WhenToRun.navigating_out → gs.onRefresh = true →
       gs.scripts.isEmpty = false → gs.confirmPopup = false →
       matchesPattern (urlToMatchOf gs curUrl curHost) gs.domainPattern = true →
       gs ∈ (globalLoop confirm NavType.refresh curUrl curHost session (gs :: rest) k).1) := by
  refine ⟨?_, ?_, ?_⟩
  · intro confirm pu ph L k gs hor hmem
    have h := (departureLoop_mem confirm pu ph L k gs hmem).2
    rw [hor] at h
    exact absurd h (by decide)
  · intro confirm nav curUrl curHost session L k gs hw hnav hmem
    have h := (globalLoop_mem confirm nav curUrl curHost session L k gs hmem).1
    rw [globalShouldRun_navigating_out gs nav session hw hnav] at h
    exact Bool.false_ne_true h
  · intro confirm curUrl curHost session rest k gs hw hor hne hcp hm
    have hsr := globalShouldRun_refresh_override gs session hor
    rw [globalLoop]
    simp [hm, hsr, hne, hcp]

/-- C9 counterexample to the claim as stated: a `navigating_out` rule with
`onRefresh = true` and pattern `*` *is* executed by a same-URL reload event
(previous tracked URL equal to the event URL), through the `onRefresh`
override of the load-complete handler — so a code path running such a rule
does exist. -/
theorem C9_counterexample :
    (⟨"g2", "G2", WhenToRun.navigating_out, "*", true, false,
        [⟨"c", Timing.document_start⟩]⟩ : GlobalScript) ∈
      (onUpdated (fun _ => true)
        ⟨[], [⟨"g2", "G2", WhenToRun.navigating_out, "*", true, false,
          [⟨"c", Timing.document_start⟩]⟩]⟩
        ⟨0, some "complete", some "https://a.com", "https://a.com"⟩
        ⟨[(0, "https://a.com")], [], []⟩ []).executedGlobals := by
  decide

/-- C9 witness for the amended statement: the same rule is not executed by a
departure evaluation, and is executed at the head of the global loop under a
`refresh` classification. -/
theorem C9_witness :
    (⟨"g2", "G2", WhenToRun.navigating_out, "*", true, false,
        [⟨"c", Timing.document_start⟩]⟩ : GlobalScript) ∉
      (departureLoop (fun _ => true) "https://b.com" "b.com"
        [⟨"g2", "G2", WhenToRun.navigating_out, "*", true, false,
          [⟨"c", Timing.document_start⟩]⟩] 0).1 ∧
    (⟨"g2", "G2", WhenToRun.navigating_out, "*", true, false,
        [⟨"c", Timing.document_start⟩]⟩ : GlobalScript) ∈
      (globalLoop (fun _ => true) NavType.refresh "https://a.com" "a.com" []
        [⟨"g2", "G2", WhenToRun.navigating_out, "*", true, false,
          [⟨"c", Timing.document_start⟩]⟩] 0).1 := by
  constructor
  · exact C9_navigating_out_onRefresh.1 (fun _ => true) "https://b.com" "b.com"
      _ 0 _ rfl
  · exact C9_navigating_out_onRefresh.2.2 (fun _ => true) "https://a.com" "a.com" [] [] 0
      _ rfl rfl (by decide) rfl (by decide)

/-! ## C1 -/

/-- C1 (amended): for a load-complete on a non-internal URL whose origin
matches a stored Site with at least one script: (i) a site script with
`runAlways = false` is executed only if the session marker
`launcher_opened_<siteId>` held `true` before the load; (ii) when the marker
was present it is deleted by the processing (consumed once, however many
scripts the nonempty list holds); (iii) hence a subsequent load of the same
site against the resulting session (marker absent) executes no
`runAlways = false` script.  (A site with an *empty* script list skips the
whole block, leaving the marker in place — see the counterexample.) -/
theorem C1_launcher_gated_site_scripts :
    ∀ (confirm : Nat → Bool) (sites : List Site) (globals : List GlobalScript)
      (tabId : Nat) (tabUrl : String) (maps : TabMaps)
      (session : List (String × Bool)) (k : Nat) (site : Site),
      internalPage tabUrl = false →
      sites.find? (fun s => siteOriginMatches s.url tabUrl) = some site →
      site.scripts.isEmpty = false →
      (∀ s ∈ (completePhase confirm sites globals tabId tabUrl maps session k).executedSite,
         s.runAlways = some false →
         mapGet session ("launcher_opened_" ++ site.id) = some true) ∧
      (mapGet session ("launcher_opened_" ++ site.id) = some true →
         mapGet (completePhase confirm sites globals tabId tabUrl maps session k).session
           ("launcher_opened_" ++ site.id) = none) ∧
      (∀ (confirm2 : Nat → Bool) (maps2 : TabMaps) (k2 : Nat) (s : SiteScript),
         mapGet session ("launcher_opened_" ++ site.id) = some true →
         s ∈ (completePhase confirm2 sites globals tabId tabUrl maps2
               (completePhase confirm sites globals tabId tabUrl maps session k).session
               k2).executedSite →
         s.runAlways ≠ some false) := by
  intro confirm sites globals tabId tabUrl maps session k site hint hfind hne
  obtain ⟨hex, hsess⟩ :=
    completePhase_site_shape confirm sites globals tabId tabUrl maps session k site hint hfind hne
  have gating : ∀ s ∈ (completePhase confirm sites globals tabId tabUrl maps session k).executedSite,
      s.runAlways = some false →
      mapGet session ("launcher_opened_" ++ site.id) = some true := by
    intro s hs hra
    rw [hex] at hs
    have h := siteScriptsLoop_mem confirm _ site.scripts k s hs hra
    exact of_decide_eq_true h
  have consume : mapGet session ("launcher_opened_" ++ site.id) = some true →
      mapGet (completePhase confirm sites globals tabId tabUrl maps session k).session
        ("launcher_opened_" ++ site.id) = none := by
    intro hmark
    rw [hsess, if_pos hmark]
    exact mapGet_mapRemove_self session _
  refine ⟨gating, consume, ?_⟩
  intro confirm2 maps2 k2 s hmark hs hra
  obtain ⟨hex2, -⟩ :=
    completePhase_site_shape confirm2 sites globals tabId tabUrl maps2
      ((completePhase confirm sites globals tabId tabUrl maps session k).session) k2 site
      hint hfind hne
  rw [hex2] at hs
  have h := siteScriptsLoop_mem confirm2 _ site.scripts k2 s hs hra
  have h2 := of_decide_eq_true h
  rw [consume hmark] at h2
  exact Option.noConfusion h2

/-- C1 witness: the end-to-end scenario of spec section 8 — a site with one
`runAlways = false` script, marker set: the script runs, the marker is
consumed, and a second load against the resulting session runs nothing. -/
theorem C1_witness :
    (completePhase (fun _ => true)
        [⟨"s1", "A", "https://a.com", [⟨Timing.document_end, "x", some false, false⟩]⟩]
        [] 0 "https://a.com" ⟨[], [], []⟩ [("launcher_opened_" ++ "s1", true)] 0).executedSite =
      [⟨Timing.document_end, "x", some false, false⟩] ∧
    mapGet (completePhase (fun _ => true)
        [⟨"s1", "A", "https://a.com", [⟨Timing.document_end, "x", some false, false⟩]⟩]
        [] 0 "https://a.com" ⟨[], [], []⟩ [("launcher_opened_" ++ "s1", true)] 0).session
      ("launcher_opened_" ++ "s1") = none := by
  constructor
  · decide
  · exact (C1_launcher_gated_site_scripts (fun _ => true)
      [⟨"s1", "A", "https://a.com", [⟨Timing.document_end, "x", some false, false⟩]⟩]
      [] 0 "https://a.com" ⟨[], [], []⟩ [("launcher_opened_" ++ "s1", true)] 0
      ⟨"s1", "A", "https://a.com", [⟨Timing.document_end, "x", some false, false⟩]⟩
      (by decide) (by decide) (by decide)).2.1 (by decide)

/-- C1 counterexample to the claim as stated: a matched site whose stored
script list is empty skips the whole site block (background.js line 486), so
the marker is *not* consumed by the load — against "deleted once after all of
that site's scripts are processed ... regardless of how many scripts the site
has". -/
theorem C1_counterexample :
    (([⟨"s1", "A", "https://a.com", []⟩] : List Site).find?
        (fun s => siteOriginMatches s.url "https://a.com") =
      some ⟨"s1", "A", "https://a.com", []⟩) ∧
    mapGet ([("launcher_opened_s1", true)] : List (String × Bool)) "launcher_opened_s1" =
      some true ∧
    mapGet (completePhase (fun _ => true) [⟨"s1", "A", "https://a.com", []⟩] [] 0
        "https://a.com" ⟨[], [], []⟩ [("launcher_opened_s1", true)] 0).session
      "launcher_opened_s1" = some true := by
  decide

/-! ## C5 -/

/-- C5 (amended): for an observed URL change with tracked previous URL `prev`:
equality with the new URL classifies `refresh`; otherwise, hostnames that
differ classify `navigation` *only when the previous hostname is nonempty*;
otherwise (equal hostnames, or an empty/unavailable previous hostname — the
falsy guard of background.js line 384) the classification is `direct`.  The
last part ties the classification to what the URL-change phase stores. -/
theorem C5_navigation_classification :
    ∀ (prev cur : String),
      (prev = cur → classifyNav prev cur = NavType.refresh) ∧
      (prev ≠ cur → getHostname prev ≠ "" → getHostname prev ≠ getHostname cur →
         classifyNav prev cur = NavType.navigation) ∧
      (prev ≠ cur → (getHostname prev = "" ∨ getHostname prev = getHostname cur) →
         classifyNav prev cur = NavType.direct) ∧
      (∀ (confirm : Nat → Bool) (G : List GlobalScript) (tabId : Nat) (maps : TabMaps) (k : Nat),
         mapGet maps.prevUrls tabId = some prev →
         mapGet (urlChangePhase confirm G tabId cur maps k).1.navTypes tabId =
           some (classifyNav prev cur)) := by
  intro prev cur
  refine ⟨?_, ?_, ?_, ?_⟩
  · intro h; simp [classifyNav, h]
  · intro hne hh hdiff
    have hpne : prev ≠ "" := by
      intro h; rw [h] at hh; exact hh rfl
    simp [classifyNav, hne, hpne, hh, hdiff]
  · intro hne hcase
    by_cases hpne : prev = ""
    · subst hpne; simp [classifyNav, hne]
    · rcases hcase with h | h <;> simp [classifyNav, hne, hpne, h]
  · intro confirm G tabId maps k hprev
    simp [urlChangePhase, hprev, mapGet_mapSet_self]

/-- C5 witness: two consecutive distinct cross-hostname URLs classify
`navigation`; identical URLs classify `refresh`; same hostname with a
different path classifies `direct`. -/
theorem C5_witness :
    classifyNav "https://a.com/x" "https://b.com/y" = NavType.navigation ∧
    classifyNav "https://a.com/x" "https://a.com/x" = NavType.refresh ∧
    classifyNav "https://a.com/x" "https://a.com/y" = NavType.direct := by
  refine ⟨?_, ?_, ?_⟩
  · exact (C5_navigation_classification "https://a.com/x" "https://b.com/y").2.1
      (by decide) (by decide) (by decide)
  · exact (C5_navigation_classification "https://a.com/x" "https://a.com/x").1 rfl
  · exact (C5_navigation_classification "https://a.com/x" "https://a.com/y").2.2.1
      (by decide) (Or.inr (by decide))

/-- C5 counterexample to the claim as stated: previous URL `about:blank` has
hostname `""`, the new URL `https://x.com` has hostname `x.com` — the
hostnames differ, so the claim requires `navigation`, but the falsy-hostname
guard classifies the change `direct`. -/
theorem C5_counterexample :
    getHostname "about:blank" ≠ getHostname "https://x.com" ∧
    ("about:blank" : String) ≠ "https://x.com" ∧
    mapGet (urlChangePhase (fun _ => false) [] 7 "https://x.com"
        ⟨[(7, "about:blank")], [], []⟩ 0).1.navTypes 7 = some NavType.direct := by
  decide

/-! ## C7 -/

/-- C7 (amended): the load-complete handler skips exactly the URLs starting
with `chrome://`, `chrome-extension://` or `about:`: for those it evaluates no
rule, injects nothing and changes no state; a full event for such a URL with
no URL change leaves everything untouched.  URLs of *other* non-http(s)
schemes (e.g. `file://`) are not covered by the check and are processed like
ordinary pages — see the counterexample. -/
theorem C7_internal_page_skip :
    (∀ (confirm : Nat → Bool) (sites : List Site) (globals : List GlobalScript)
       (tabId : Nat) (tabUrl : String) (maps : TabMaps)
       (session : List (String × Bool)) (k : Nat),
       internalPage tabUrl = true →
       completePhase confirm sites globals tabId tabUrl maps session k =
         ⟨maps, session, [], [], k⟩) ∧
    (∀ (confirm : Nat → Bool) (stores : Stores) (ev : UpdateEvent) (maps : TabMaps)
       (session : List (String × Bool)),
       internalPage ev.tabUrl = true → ev.changeUrl = none →
       onUpdated confirm stores ev maps session = ⟨maps, session, [], []⟩) := by
  have cp : ∀ (confirm : Nat → Bool) (sites : List Site) (globals : List GlobalScript)
      (tabId : Nat) (tabUrl : String) (maps : TabMaps)
      (session : List (String × Bool)) (k : Nat),
      internalPage tabUrl = true →
      completePhase confirm sites globals tabId tabUrl maps session k =
        ⟨maps, session, [], [], k⟩ := by
    intro confirm sites globals tabId tabUrl maps session k h
    rw [completePhase, if_pos h]
  refine ⟨cp, ?_⟩
  intro confirm stores ev maps session hint hcu
  rw [onUpdated, eventUrlPhase_none confirm stores ev maps hcu]
  by_cases hst : (decide (ev.changeStatus = some "complete") && decide (ev.tabUrl ≠ "")) = true
  · simp only [hst, if_true]
    rw [cp confirm stores.sites stores.globalScripts ev.tabId ev.tabUrl maps session 0 hint]
    rfl
  · simp only [hst, if_false]
    simp

/-- C7 witness: a `chrome://settings` load-complete changes nothing and runs
nothing, even with a matching-pattern rule stored. -/
theorem C7_witness :
    completePhase (fun _ => true) []
      [⟨"g1", "G", WhenToRun.navigating_in, "*", false, false,
        [⟨"code", Timing.document_start⟩]⟩] 3 "chrome://settings"
      ⟨[(3, "https://a.com")], [(3, NavType.direct)], []⟩ [("launcher_opened_s1", true)] 0 =
      ⟨⟨[(3, "https://a.com")], [(3, NavType.direct)], []⟩, [("launcher_opened_s1", true)],
        [], [], 0⟩ :=
  C7_internal_page_skip.1 (fun _ => true) []
    [⟨"g1", "G", WhenToRun.navigating_in, "*", false, false,
      [⟨"code", Timing.document_start⟩]⟩] 3 "chrome://settings"
    ⟨[(3, "https://a.com")], [(3, NavType.direct)], []⟩ [("launcher_opened_s1", true)] 0
    (by decide)

/-- C7 counterexample to the claim as stated: `file:///tmp/a.html` has a
non-http(s) scheme, yet a load-complete event for it evaluates the global
rules and injects a matching `navigating_in` rule's script — the scheme check
covers only the three literal prefixes. -/
theorem C7_counterexample :
    strStartsWith "file:///tmp/a.html" "http" = false ∧
    (onUpdated (fun _ => false)
        ⟨[], [⟨"g1", "G", WhenToRun.navigating_in, "*", false, false,
          [⟨"code", Timing.document_start⟩]⟩]⟩
        ⟨1, some "complete", none, "file:///tmp/a.html"⟩
        ⟨[], [], []⟩ []).executedGlobals ≠ [] := by
  decide

/-! ## C4 -/

/-- C4: `matchesPattern` factors through its target extraction — for a
pattern without `/` the result depends only on the extracted hostname of the
URL; for a pattern with `/` it depends only on the extracted
hostname+pathname (so queries, fragments, schemes make no difference). -/
theorem C4_matches_depends_only_on_target :
    (∀ (url1 url2 pattern : String), strContains pattern '/' = false →
       hostTarget url1 = hostTarget url2 →
       matchesPattern url1 pattern = matchesPattern url2 pattern) ∧
    (∀ (url1 url2 pattern : String), strContains pattern '/' = true →
       hostPathTarget url1 = hostPathTarget url2 →
       matchesPattern url1 pattern = matchesPattern url2 pattern) := by
  constructor
  · intro url1 url2 pattern hc heq
    simp [matchesPattern, hc, heq]
  · intro url1 url2 pattern hc heq
    simp [matchesPattern, hc, heq]

/-- C4 witness: the query string and the fragment do not affect matching — a
path pattern sees only hostname+pathname, a hostless pattern only the
hostname. -/
theorem C4_witness :
    matchesPattern "https://x.com/a?q=1" "x.com/a" =
      matchesPattern "https://x.com/a#frag" "x.com/a" ∧
    matchesPattern "https://sub.example.com/whatever?x=2" "*.example.com" =
      matchesPattern "sub.example.com" "*.example.com" :=
  ⟨C4_matches_depends_only_on_target.2 "https://x.com/a?q=1" "https://x.com/a#frag"
      "x.com/a" (by decide) (by decide),
    C4_matches_depends_only_on_target.1 "https://sub.example.com/whatever?x=2"
      "sub.example.com" "*.example.com" (by decide) (by decide)⟩

/-! ## C10 -/

/-- C10: `matchesPattern` is total — every string pair yields a boolean; a
URL-parse failure (the `none` of the modelled `new URL`) makes `getHostname`
return `""` rather than failing, and makes `matchesPattern` fall back to the
manual prefix-stripping extraction. -/
theorem C10_matchesPattern_total :
    (∀ url : String, parseURL url = none → getHostname url = "") ∧
    (∀ url pattern : String,
       matchesPattern url pattern = true ∨ matchesPattern url pattern = false) ∧
    (∀ url pattern : String,
       parseURL (if strStartsWith url "http" then url else "https://" ++ url) = none →
       strContains pattern '/' = false →
       matchesPattern url pattern = testPattern pattern (manualHost url)) := by
  refine ⟨?_, ?_, ?_⟩
  · intro url h
    simp [getHostname, h]
  · intro url pattern
    cases h : matchesPattern url pattern
    · exact Or.inr rfl
    · exact Or.inl rfl
  · intro url pattern h hc
    simp [matchesPattern, hostTarget, h, hc]

/-- C10 witness: `http://` is unparseable — `getHostname` degrades to `""`
and `matchesPattern` runs on the manual fallback target, still returning a
boolean. -/
theorem C10_witness :
    getHostname "http://" = "" ∧
    (matchesPattern "http://" "x" = true ∨ matchesPattern "http://" "x" = false) ∧
    matchesPattern "http://" "x" = testPattern "x" (manualHost "http://") :=
  ⟨C10_matchesPattern_total.1 "http://" (by decide),
    C10_matchesPattern_total.2.1 "http://" "x",
    C10_matchesPattern_total.2.2 "http://" "x" (by decide) (by decide)⟩

/-! ## C3 infrastructure: properties of the compilation pipeline -/

lemma replaceAllFuel_congr (pat rep : List Char) :
    ∀ (n : Nat) (s : List Char) (f1 f2 : Nat), s.length ≤ n → s.length ≤ f1 → s.length ≤ f2 →
      replaceAllFuel pat rep f1 s = replaceAllFuel pat rep f2 s := by
  intro n
  induction n with
  | zero =>
    intro s f1 f2 h1 _ _
    have hs : s = [] := List.eq_nil_of_length_eq_zero (Nat.le_zero.mp h1)
    subst hs
    simp [replaceAllFuel]
  | succ n ih =>
    intro s f1 f2 hn h1 h2
    cases s with
    | nil => simp [replaceAllFuel]
    | cons c rest =>
      simp only [List.length_cons] at hn h1 h2
      cases f1 with
      | zero => omega
      | succ f1 =>
        cases f2 with
        | zero => omega
        | succ f2 =>
          rw [replaceAllFuel, replaceAllFuel]
          by_cases hc : (pat.isPrefixOf (c :: rest) && !pat.isEmpty) = true
          · rw [if_pos hc, if_pos hc]
            have hplen : 1 ≤ pat.length := by
              cases pat with
              | nil => simp [List.isEmpty] at hc
              | cons p ps => simp
            have hdlen : ((c :: rest).drop pat.length).length ≤ rest.length := by
              simp only [List.length_drop, List.length_cons]
              omega
            rw [ih _ f1 f2 (by omega) (by omega) (by omega)]
          · rw [if_neg hc, if_neg hc]
            rw [ih rest f1 f2 (by omega) (by omega) (by omega)]

lemma replaceAllFuel_eq (pat rep : List Char) (s : List Char) (f : Nat) (h : s.length ≤ f) :
    replaceAllFuel pat rep f s = replaceAll pat rep s :=
  replaceAllFuel_congr pat rep s.length s f s.length (le_refl _) h (le_refl _)

lemma replaceAll_cons_pos (pat rep : List Char) (c : Char) (s : List Char)
    (h1 : pat.isPrefixOf (c :: s) = true) (h2 : pat ≠ []) :
    replaceAll pat rep (c :: s) = rep ++ replaceAll pat rep ((c :: s).drop pat.length) := by
  have hcond : (pat.isPrefixOf (c :: s) && !pat.isEmpty) = true := by
    rw [h1]
    cases pat with
    | nil => exact absurd rfl h2
    | cons a as => simp [List.isEmpty]
  have hplen : 1 ≤ pat.length := by
    cases pat with
    | nil => exact absurd rfl h2
    | cons a as => simp
  rw [replaceAll]
  simp only [List.length_cons]
  rw [replaceAllFuel, if_pos hcond]
  congr 1
  apply replaceAllFuel_eq
  simp only [List.length_drop, List.length_cons]
  omega

lemma replaceAll_cons_neg (pat rep : List Char) (c : Char) (s : List Char)
    (h : (pat.isPrefixOf (c :: s) && !pat.isEmpty) = false) :
    replaceAll pat rep (c :: s) = c :: replaceAll pat rep s := by
  rw [replaceAll]
  simp only [List.length_cons]
  rw [replaceAllFuel, if_neg (by rw [h]; exact Bool.false_ne_true)]
  rw [replaceAllFuel_eq pat rep s s.length (le_refl _)]

lemma replaceAll_append_head (pat rep Y : List Char) (hne : pat ≠ []) :
    replaceAll pat rep (pat ++ Y) = rep ++ replaceAll pat rep Y := by
  cases hp : pat with
  | nil => exact absurd hp hne
  | cons a as =>
    subst hp
    rw [List.cons_append]
    rw [replaceAll_cons_pos (a :: as) rep a (as ++ Y) ?pre (by simp)]
    · rw [← List.cons_append, List.drop_left]
    case pre =>
      rw [ List.isPrefixOf_iff_prefix, ← List.cons_append]
      exact List.prefix_append _ _

lemma replaceAll_star_free (ph : List Char) :
    ∀ s : List Char, '*' ∉ s → replaceAll ['*'] ph s = s := by
  intro s
  induction s with
  | nil => intro _; rfl
  | cons c rest ih =>
    intro h
    have hc : c ≠ '*' := fun hh => h (hh ▸ List.mem_cons_self c rest)
    rw [replaceAll_cons_neg]
    · rw [ih (fun hm => h (List.mem_cons_of_mem c hm))]
    · simp [List.isPrefixOf, Ne.symm hc]

lemma replaceAll_infix_free (pat rep : List Char) (_hne : pat ≠ []) :
    ∀ s : List Char, ¬ pat <:+: s → replaceAll pat rep s = s := by
  intro s
  induction s with
  | nil => intro _; rfl
  | cons c rest ih =>
    intro h
    have hpre : pat.isPrefixOf (c :: rest) = false := by
      cases hp : pat.isPrefixOf (c :: rest)
      · rfl
      · exact absurd ( List.isPrefixOf_iff_prefix.mp hp).isInfix h
    rw [replaceAll_cons_neg _ _ _ _ (by rw [hpre]; rfl)]
    rw [ih (fun hm => h (List.infix_cons hm))]

lemma escapeChars_append : ∀ a b : List Char, escapeChars (a ++ b) = escapeChars a ++ escapeChars b := by
  intro a b
  induction a with
  | nil => rfl
  | cons c rest ih =>
    by_cases h : isRegexMeta c = true
    · simp [escapeChars, h, ih]
    · simp only [Bool.not_eq_true] at h
      simp [escapeChars, h, ih]

lemma escapeChars_placeholder : escapeChars placeholderStr.data = placeholderStr.data := by
  decide

lemma placeholder_not_prefix_cons (x : Char) (l : List Char) (hx : x ≠ '_') :
    placeholderStr.data.isPrefixOf (x :: l) = false := by
  cases hp : placeholderStr.data.isPrefixOf (x :: l)
  · rfl
  · exfalso
    have h := List.isPrefixOf_iff_prefix.mp hp
    rw [show placeholderStr.data = '_' :: "__WILDCARD_PLACEHOLDER___".data from rfl,
      List.cons_prefix_cons] at h
    exact hx h.1.symm

lemma prefix_of_escape : ∀ (p q : List Char), (∀ x ∈ q, isRegexMeta x = false) →
    q <+: escapeChars p → q <+: p := by
  intro p
  induction p with
  | nil => intro q _ h; exact h
  | cons c rest ih =>
    intro q hq h
    by_cases hm : isRegexMeta c = true
    · rw [show escapeChars (c :: rest) = '\\' :: c :: escapeChars rest from by
        simp [escapeChars, hm]] at h
      cases q with
      | nil => exact List.nil_prefix
      | cons x q' =>
        rw [List.cons_prefix_cons] at h
        have hx := hq x (List.mem_cons_self x q')
        rw [h.1] at hx
        simp [isRegexMeta] at hx
    · rw [show escapeChars (c :: rest) = c :: escapeChars rest from by
        simp only [Bool.not_eq_true] at hm; simp [escapeChars, hm]] at h
      cases q with
      | nil => exact List.nil_prefix
      | cons x q' =>
        rw [List.cons_prefix_cons] at h
        obtain ⟨rfl, h2⟩ := h
        exact List.cons_prefix_cons.mpr
          ⟨rfl, ih q' (fun y hy => hq y (List.mem_cons_of_mem _ hy)) h2⟩

lemma infix_of_escape : ∀ (p q : List Char), (∀ x ∈ q, isRegexMeta x = false) →
    q <:+: escapeChars p → q <:+: p := by
  intro p
  induction p with
  | nil => intro q _ h; exact h
  | cons c rest ih =>
    intro q hq h
    by_cases hm : isRegexMeta c = true
    · rw [show escapeChars (c :: rest) = '\\' :: c :: escapeChars rest from by
        simp [escapeChars, hm]] at h
      rw [List.infix_cons_iff] at h
      rcases h with h | h
      · cases q with
        | nil => exact List.nil_prefix.isInfix
        | cons x q' =>
          rw [List.cons_prefix_cons] at h
          have hx := hq x (List.mem_cons_self x q')
          rw [h.1] at hx
          simp [isRegexMeta] at hx
      · rw [List.infix_cons_iff] at h
        rcases h with h | h
        · cases q with
          | nil => exact List.nil_prefix.isInfix
          | cons x q' =>
            rw [List.cons_prefix_cons] at h
            have hx := hq x (List.mem_cons_self x q')
            rw [h.1, hm] at hx
            exact Bool.noConfusion hx
        · exact List.infix_cons (ih q hq h)
    · rw [show escapeChars (c :: rest) = c :: escapeChars rest from by
        simp only [Bool.not_eq_true] at hm; simp [escapeChars, hm]] at h
      rw [List.infix_cons_iff] at h
      rcases h with h | h
      · cases q with
        | nil => exact List.nil_prefix.isInfix
        | cons x q' =>
          rw [List.cons_prefix_cons] at h
          obtain ⟨rfl, h2⟩ := h
          exact (List.cons_prefix_cons.mpr
            ⟨rfl, prefix_of_escape rest q' (fun y hy => hq y (List.mem_cons_of_mem _ hy)) h2⟩).isInfix
      · exact List.infix_cons (ih q hq h)

lemma parsePieces_escape : ∀ p : List Char, parsePieces (escapeChars p) = p.map RPiece.lit := by
  intro p
  induction p with
  | nil => rfl
  | cons c rest ih =>
    by_cases hm : isRegexMeta c = true
    · rw [show escapeChars (c :: rest) = '\\' :: c :: escapeChars rest from by
        simp [escapeChars, hm]]
      simp [parsePieces, ih]
    · have h1 : c ≠ '\\' := by intro hh; rw [hh] at hm; simp [isRegexMeta] at hm
      have h2 : c ≠ '.' := by intro hh; rw [hh] at hm; simp [isRegexMeta] at hm
      rw [show escapeChars (c :: rest) = c :: escapeChars rest from by
        simp only [Bool.not_eq_true] at hm; simp [escapeChars, hm]]
      have step : parsePieces (c :: escapeChars rest) =
          RPiece.lit c :: parsePieces (escapeChars rest) := by
        conv_lhs => rw [parsePieces.eq_def]
        simp [h1, h2]
      rw [step, ih, List.map_cons]

/-- The expected shape of the compiled regex body: `.*` for each `*`, a
backslash-escaped pair for each metacharacter, the character itself
otherwise. -/
def compiledBlocks (p : List Char) : List Char :=
  p.foldr (fun c acc =>
    (if c = '*' then ['.', '*'] else if isRegexMeta c then ['\\', c] else [c]) ++ acc) []

lemma parsePieces_compiledBlocks : ∀ p : List Char,
    parsePieces (compiledBlocks p) =
      p.map (fun c => if c = '*' then RPiece.dotstar else RPiece.lit c) := by
  intro p
  induction p with
  | nil => rfl
  | cons c rest ih =>
    show parsePieces ((if c = '*' then ['.', '*'] else if isRegexMeta c then ['\\', c] else [c]) ++
      compiledBlocks rest) = _
    by_cases hs : c = '*'
    · subst hs
      simp [parsePieces, ih]
    · by_cases hm : isRegexMeta c = true
      · simp [hs, hm, parsePieces, ih]
      · have h1 : c ≠ '\\' := by intro hh; rw [hh] at hm; simp [isRegexMeta] at hm
        have h2 : c ≠ '.' := by intro hh; rw [hh] at hm; simp [isRegexMeta] at hm
        simp only [hs, if_false, hm, Bool.false_eq_true, List.singleton_append]
        have step : parsePieces (c :: compiledBlocks rest) =
            RPiece.lit c :: parsePieces (compiledBlocks rest) := by
          conv_lhs => rw [parsePieces.eq_def]
          simp [h1, h2]
        rw [step, ih]
        simp [hs]

lemma compile_underscore_free : ∀ p : List Char, '_' ∉ p →
    compileRegexBody p = compiledBlocks p := by
  intro p
  induction p with
  | nil => intro _; rfl
  | cons c rest ih =>
    intro h
    have hrest : '_' ∉ rest := fun hm => h (List.mem_cons_of_mem _ hm)
    have hcu : c ≠ '_' := fun hh => h (hh ▸ List.mem_cons_self _ _)
    have ihr := ih hrest
    simp only [compileRegexBody] at ihr ⊢
    by_cases hs : c = '*'
    · subst hs
      rw [replaceAll_cons_pos ['*'] placeholderStr.data '*' rest
        (by simp [List.isPrefixOf]) (by simp)]
      have hdrop : (('*' :: rest).drop ['*'].length) = rest := rfl
      rw [hdrop, escapeChars_append, escapeChars_placeholder,
        replaceAll_append_head _ _ _ (by decide), ihr]
      simp [compiledBlocks]
    · rw [replaceAll_cons_neg ['*'] placeholderStr.data c rest
        (by simp [List.isPrefixOf, Ne.symm hs])]
      by_cases hm : isRegexMeta c = true
      · have hcne : c ≠ '_' := hcu
        rw [show escapeChars (c :: replaceAll ['*'] placeholderStr.data rest) =
            '\\' :: c :: escapeChars (replaceAll ['*'] placeholderStr.data rest) from by
          simp [escapeChars, hm]]
        rw [replaceAll_cons_neg placeholderStr.data _ '\\' _
          (by rw [placeholder_not_prefix_cons '\\' _ (by decide)]; rfl)]
        rw [replaceAll_cons_neg placeholderStr.data _ c _
          (by rw [placeholder_not_prefix_cons c _ hcne]; rfl)]
        rw [ihr]
        simp [compiledBlocks, hs, hm]
      · rw [show escapeChars (c :: replaceAll ['*'] placeholderStr.data rest) =
            c :: escapeChars (replaceAll ['*'] placeholderStr.data rest) from by
          simp only [Bool.not_eq_true] at hm; simp [escapeChars, hm]]
        rw [replaceAll_cons_neg placeholderStr.data _ c _
          (by rw [placeholder_not_prefix_cons c _ hcu]; rfl)]
        rw [ihr]
        simp [compiledBlocks, hs, hm]

lemma rmatchFuel_congr :
    ∀ (n : Nat) (ps : List RPiece) (ts : List Char) (f1 f2 : Nat),
      ps.length + ts.length ≤ n → ps.length + ts.length < f1 → ps.length + ts.length < f2 →
      rmatchFuel f1 ps ts = rmatchFuel f2 ps ts := by
  intro n
  induction n with
  | zero =>
    intro ps ts f1 f2 hn h1 h2
    have hp : ps.length = 0 ∧ ts.length = 0 := by omega
    obtain ⟨hps, hts⟩ := hp
    rw [List.length_eq_zero] at hps hts
    subst hps; subst hts
    cases f1 with
    | zero => omega
    | succ f1 =>
      cases f2 with
      | zero => omega
      | succ f2 => rfl
  | succ n ih =>
    intro ps ts f1 f2 hn h1 h2
    cases f1 with
    | zero => omega
    | succ f1 =>
      cases f2 with
      | zero => omega
      | succ f2 =>
        cases ps with
        | nil =>
          cases ts with
          | nil => rfl
          | cons t ts2 => rfl
        | cons p ps' =>
          cases p with
          | lit c =>
            cases ts with
            | nil => rfl
            | cons t ts2 =>
              simp only [rmatchFuel]
              simp only [List.length_cons] at hn h1 h2
              rw [ih ps' ts2 f1 f2 (by omega) (by omega) (by omega)]
          | anyChar =>
            cases ts with
            | nil => rfl
            | cons t ts2 =>
              simp only [rmatchFuel]
              simp only [List.length_cons] at hn h1 h2
              rw [ih ps' ts2 f1 f2 (by omega) (by omega) (by omega)]
          | dotstar =>
            cases ts with
            | nil =>
              simp only [rmatchFuel]
              simp only [List.length_cons] at hn h1 h2
              rw [ih ps' [] f1 f2 (by simp only [List.length_nil, List.length_cons]; omega) (by simp only [List.length_nil, List.length_cons]; omega) (by simp only [List.length_nil, List.length_cons]; omega)]
            | cons t ts2 =>
              simp only [rmatchFuel]
              simp only [List.length_cons] at hn h1 h2
              rw [ih ps' (t :: ts2) f1 f2 (by simp only [List.length_nil, List.length_cons]; omega) (by simp only [List.length_nil, List.length_cons]; omega) (by simp only [List.length_nil, List.length_cons]; omega)]
              rw [ih (RPiece.dotstar :: ps') ts2 f1 f2 (by simp only [List.length_nil, List.length_cons]; omega) (by simp only [List.length_nil, List.length_cons]; omega)
                (by simp only [List.length_nil, List.length_cons]; omega)]

lemma rmatchFuel_eq (ps : List RPiece) (ts : List Char) (f : Nat)
    (h : ps.length + ts.length < f) :
    rmatchFuel f ps ts = rmatch ps ts :=
  rmatchFuel_congr (ps.length + ts.length) ps ts f (ps.length + ts.length + 1)
    (le_refl _) h (by omega)

lemma rmatch_nil_cons (t : Char) (ts : List Char) : rmatch [] (t :: ts) = false := by
  rw [rmatch]
  simp [rmatchFuel]

lemma rmatch_lit_nil (c : Char) (ps : List RPiece) :
    rmatch (RPiece.lit c :: ps) [] = false := by
  rw [rmatch]
  simp [rmatchFuel]

lemma rmatch_lit_cons (c : Char) (ps : List RPiece) (t : Char) (ts : List Char) :
    rmatch (RPiece.lit c :: ps) (t :: ts) = (c == t && rmatch ps ts) := by
  rw [rmatch]
  simp only [List.length_cons]
  rw [show ps.length + 1 + (ts.length + 1) + 1 = (ps.length + 1 + (ts.length + 1)) + 1 from rfl]
  simp only [rmatchFuel]
  rw [rmatchFuel_eq ps ts _ (by omega)]

lemma rmatch_dotstar_nil (ps : List RPiece) :
    rmatch (RPiece.dotstar :: ps) [] = rmatch ps [] := by
  rw [rmatch]
  simp only [List.length_cons, List.length_nil]
  rw [show ps.length + 1 + 0 + 1 = (ps.length + 1 + 0) + 1 from rfl]
  simp only [rmatchFuel]
  rw [rmatchFuel_eq ps [] _ (by simp only [List.length_nil, List.length_cons]; omega)]

lemma rmatch_dotstar_cons (ps : List RPiece) (t : Char) (ts2 : List Char) :
    rmatch (RPiece.dotstar :: ps) (t :: ts2) =
      (rmatch ps (t :: ts2) || (!isLineTerm t && rmatch (RPiece.dotstar :: ps) ts2)) := by
  rw [rmatch]
  simp only [List.length_cons]
  rw [show ps.length + 1 + (ts2.length + 1) + 1 = (ps.length + 1 + (ts2.length + 1)) + 1 from rfl]
  simp only [rmatchFuel]
  rw [rmatchFuel_eq ps (t :: ts2) _ (by simp only [List.length_nil, List.length_cons]; omega)]
  rw [rmatchFuel_eq (RPiece.dotstar :: ps) ts2 _ (by simp only [List.length_nil, List.length_cons]; omega)]

lemma rmatch_lits : ∀ (p t : List Char), rmatch (p.map RPiece.lit) t = true ↔ t = p := by
  intro p
  induction p with
  | nil =>
    intro t
    cases t with
    | nil => simp [rmatch, rmatchFuel]
    | cons d t' => simp [rmatch_nil_cons]
  | cons c p' ih =>
    intro t
    cases t with
    | nil => simp [rmatch_lit_nil]
    | cons d t' =>
      rw [List.map_cons, rmatch_lit_cons]
      simp only [Bool.and_eq_true, beq_iff_eq, ih t', List.cons.injEq]
      exact ⟨fun ⟨a, b⟩ => ⟨a.symm, b⟩, fun ⟨a, b⟩ => ⟨a.symm, b⟩⟩

lemma rmatch_dotstar_all : ∀ t : List Char, t.all (fun c => !isLineTerm c) = true →
    rmatch [RPiece.dotstar] t = true := by
  intro t
  induction t with
  | nil => intro _; rw [rmatch_dotstar_nil]; rfl
  | cons c ts ih =>
    intro h
    simp only [List.all_cons, Bool.and_eq_true] at h
    rw [rmatch_dotstar_cons]
    simp [h.1, ih h.2]

/-! ## C3 -/

/-- C3 (amended): the two reference cases hold
(`matches("sub.example.com","*.example.com") = true`,
`matches("example.com","*.example.com") = false`); pattern compilation
escapes every metacharacter and anchors at both ends, each `*` becoming a
wildcard matching any (possibly empty) sequence of non-line-terminator
characters and every other character matching itself — provided the internal
placeholder string `___WILDCARD_PLACEHOLDER___` does not interfere: the piece
characterization is stated for `_`-free patterns, and a pattern with no `*`
matches exactly the full target string provided it does not contain the
placeholder as a substring (see the counterexample for a placeholder-bearing
pattern, where this fails). -/
theorem C3_pattern_compilation :
    matchesPattern "sub.example.com" "*.example.com" = true ∧
    matchesPattern "example.com" "*.example.com" = false ∧
    (∀ p : String, '_' ∉ p.data →
       parsePieces (compileRegexBody p.data) =
         p.data.map (fun c => if c = '*' then RPiece.dotstar else RPiece.lit c)) ∧
    (∀ t : List Char, t.all (fun c => !isLineTerm c) = true →
       rmatch [RPiece.dotstar] t = true) ∧
    (∀ p t : String, ¬ placeholderStr.data <:+: p.data → '*' ∉ p.data →
       (testPattern p t = true ↔ t = p)) := by
  refine ⟨by decide, by decide, ?_, rmatch_dotstar_all, ?_⟩
  · intro p hp
    rw [compile_underscore_free p.data hp, parsePieces_compiledBlocks]
  · intro p t hinf hstar
    have hbody : compileRegexBody p.data = escapeChars p.data := by
      simp only [compileRegexBody]
      rw [replaceAll_star_free placeholderStr.data p.data hstar]
      exact replaceAll_infix_free placeholderStr.data ['.', '*'] (by decide) (escapeChars p.data)
        (fun hin => hinf (infix_of_escape p.data placeholderStr.data (by decide) hin))
    rw [testPattern, hbody, parsePieces_escape, rmatch_lits]
    constructor
    · intro h
      cases t; cases p
      exact congrArg String.mk (by simpa using h)
    · intro h
      rw [h]

/-- C3 witness: the compilation characterization at the pattern `a*b`, the
exact-match property at the placeholder-free no-`*` pattern `abc`, and the
wildcard semantics on a concrete line-terminator-free target. -/
theorem C3_witness :
    parsePieces (compileRegexBody "a*b".data) =
      [RPiece.lit 'a', RPiece.dotstar, RPiece.lit 'b'] ∧
    (testPattern "abc" "abc" = true ↔ ("abc" : String) = "abc") ∧
    rmatch [RPiece.dotstar] "xy".data = true := by
  refine ⟨?_, ?_, ?_⟩
  · rw [C3_pattern_compilation.2.2.1 "a*b" (by decide)]
    rfl
  · exact C3_pattern_compilation.2.2.2.2 "abc" "abc" (by decide) (by decide)
  · exact C3_pattern_compilation.2.2.2.1 "xy".data (by decide)

/-- C3 counterexample to the claim as stated: the no-`*` pattern
`___WILDCARD_PLACEHOLDER___` does *not* match only the exact target — the
internal placeholder substitution turns it into `.*`, which matches the
unrelated hostname `x.com`. -/
theorem C3_counterexample :
    strContains "___WILDCARD_PLACEHOLDER___" '*' = false ∧
    hostTarget "x.com" = "x.com" ∧
    ("x.com" : String) ≠ "___WILDCARD_PLACEHOLDER___" ∧
    matchesPattern "x.com" "___WILDCARD_PLACEHOLDER___" = true := by
  decide
